import Mathlib

/-!
Shallow embedding of `src/runthis.py`, a Selenium-driven ticket-marketplace
scraping script, together with proofs about its event deduplication and
placeholder filtering, its infinite-scroll listing collection, the per-event
and per-seat row assembly of its main loop, its browser-tab management on
aborted units, and its process exit behavior.

Browser interaction is modelled by environments that record, for each bounded
wait the script performs, whether the awaited condition became true, and by an
explicit browser state (the set of open window handles plus the current one).
Pure computations (deduplication, filtering, row assembly, the scroll loop)
are translated directly from the Python source.
-/

namespace Scraper

/-- The missing-field sentinel assigned by `scrape_events` before each
per-field lookup (runthis.py line 316). -/
def NA : String := "N/A"

/-- One scraped event card: the four fields read by `scrape_events`
(runthis.py lines 316-343). -/
structure Event where
  date : String
  time : String
  name : String
  location : String
deriving DecidableEq

/-- The deduplication key built by the dict comprehension at runthis.py
line 113: the f-string joins `name`, `date` and `location` with underscores.
The `time` field is not part of the key. -/
def eventKey (e : Event) : String :=
  e.name ++ "_" ++ e.date ++ "_" ++ e.location

/-- One Python dict assignment `d[k] = v`, on a dict represented as an
association list in key-insertion order: an existing key keeps its position
and receives the new value, a new key is appended at the end.  This is the
semantics of repeated keys in the dict comprehension at runthis.py line 113. -/
def dictInsert (d : List (String × Event)) (k : String) (v : Event) :
    List (String × Event) :=
  if d.any (fun p => p.1 == k) then
    d.map (fun p => if p.1 == k then (k, v) else p)
  else d ++ [(k, v)]

/-- Building the dict of runthis.py line 113 by folding `dictInsert` over the
combined event list, starting from an arbitrary dict `d`. -/
def dictFold (d : List (String × Event)) (es : List Event) :
    List (String × Event) :=
  es.foldl (fun acc e => dictInsert acc (eventKey e) e) d

/-- runthis.py line 113: `list({key(e): e for e in combined_events}.values())`. -/
def dedupeEvents (es : List Event) : List Event :=
  (dictFold [] es).map Prod.snd

/-- runthis.py lines 110-113: the scrape passes are concatenated
(`events_first_pass + events_second_pass`, generalized to any number of
passes) and then deduplicated. -/
def merge (passes : List (List Event)) : List Event :=
  dedupeEvents passes.flatten

/-- The placeholder test of runthis.py line 122: all four fields equal the
sentinel. -/
def isPlaceholder (e : Event) : Bool :=
  e.date == NA && e.time == NA && e.name == NA && e.location == NA

/-- runthis.py lines 120-123: keep exactly the events that are not
all-sentinel placeholders. -/
def filterPlaceholders (es : List Event) : List Event :=
  es.filter (fun e => !(isPlaceholder e))

/-- One listing row scraped from the compare page: the five fields read at
runthis.py lines 619-627. -/
structure Listing where
  title : String
  price : String
  passes : String
  rating_score : String
  rating_label : String
deriving DecidableEq

/-- The scroll-and-collect loop of `interact_with_ticket_price_page`
(runthis.py lines 612-645).  The first argument is the accumulated `listings`
list, the second the `last_height` measured before the iteration, and each
observation in the third argument is the pair of the `visible_listings`
returned by `find_elements` on that iteration and the `new_height` measured
after scrolling.  Per iteration the code extracts only
`visible_listings[len(listings):]`, i.e. the items beyond the
previously-collected count, and it leaves the loop when the height did not
grow.  The Python loop is `while True`; a finite observation list suffices
for every stabilizing page, and collection stops if observations run out. -/
def scrollLoop : List Listing → Nat → List (List Listing × Nat) → List Listing
  | collected, _, [] => collected
  | collected, lastHeight, (visible, newHeight) :: rest =>
    let collected2 := collected ++ visible.drop collected.length
    if newHeight = lastHeight then collected2
    else scrollLoop collected2 newHeight rest

/-- One output row, with the eleven fields assembled at runthis.py
lines 165-177 (also the CSV column order fixed at lines 677-689). -/
structure OutputRow where
  event_date : String
  event_time : String
  event_name : String
  event_location : String
  selected_seat : String
  per_ticket_price : String
  listing_title : String
  listing_price : String
  listing_passes : String
  listing_rating_score : String
  listing_rating_label : String
deriving DecidableEq

/-- Row assembly at runthis.py lines 165-177: the event fields, the seat
label and the per-ticket price are copied unchanged onto every listing row.
(The Python `event_info.get(field, "")` always finds the key, since
`scrape_events` stores all four.) -/
def makeRow (e : Event) (seatLabel : String) (price : String) (l : Listing) :
    OutputRow :=
  ⟨e.date, e.time, e.name, e.location, seatLabel, price,
   l.title, l.price, l.passes, l.rating_score, l.rating_label⟩

/-- Outcome of processing one seat of an event in the main loop: the seat
label from `get_all_seats_labels`, whether `select_seat_in_dropdown`
returned True (runthis.py line 153; it returns False on a timeout during the
seat-selection confirm step, lines 556-561), and the pair returned by
`interact_with_ticket_price_page` (price is None on its failure). -/
structure SeatOutcome where
  label : String
  selectSuccess : Bool
  price : Option String
  listings : List Listing
deriving DecidableEq

/-- Outcome of one event in the main loop: its scraped fields, whether
`interact_with_event_and_select_tickets` returned True (runthis.py
line 139), and the outcomes of its seats. -/
structure EventRun where
  info : Event
  interactSuccess : Bool
  seats : List SeatOutcome
deriving DecidableEq

/-- The body of the per-seat loop, runthis.py lines 151-178: a seat whose
selection failed is skipped (`continue`, line 156), a seat with no listings
or a missing price is skipped (line 162), otherwise one row per listing is
appended. -/
def processSeat (e : Event) (s : SeatOutcome) : List OutputRow :=
  if s.selectSuccess = false then []
  else
    match s.price with
    | none => []
    | some p =>
      if s.listings.isEmpty then []
      else s.listings.map (makeRow e s.label p)

/-- The body of the per-event loop, runthis.py lines 139-178: an event whose
wizard interaction failed contributes nothing (`continue`, line 146),
otherwise the rows of all its seats are appended in order. -/
def processEvent (ev : EventRun) : List OutputRow :=
  if ev.interactSuccess = false then []
  else ((ev.seats.map (processSeat ev.info)).flatten)

/-- runthis.py line 39. -/
def MAX_EVENTS_TO_SCRAPE : Nat := 8

/-- The main per-event loop over the filtered unique events, runthis.py
lines 129-188.  The `break` at lines 133-135 fires at the first index not
below `MAX_EVENTS_TO_SCRAPE`, so exactly the first `MAX_EVENTS_TO_SCRAPE`
events are considered; `final_data` accumulates the rows of all of them. -/
def mainProcess (events : List EventRun) : List OutputRow :=
  ((events.take MAX_EVENTS_TO_SCRAPE).map processEvent).flatten

/-- The browser: the list of open window handles in creation order and the
handle all commands currently target.  `nextId` is the handle a newly
opened window would receive. -/
structure BrowserState where
  handles : List Nat
  current : Nat
  nextId : Nat
deriving DecidableEq

/-- `driver.switch_to.window(w)`. -/
def switchTo (st : BrowserState) (w : Nat) : BrowserState :=
  { st with current := w }

/-- The cleanup performed by the exception handlers of
`interact_with_event_and_select_tickets` (runthis.py lines 470-476 and
481-485): every window other than `original` is switched to and closed, then
the driver switches back to `original`. -/
def closeAllSecondaries (original : Nat) (st : BrowserState) : BrowserState :=
  { st with handles := st.handles.filter (fun w => w == original),
            current := original }

/-- Which of the bounded waits inside
`interact_with_event_and_select_tickets` (runthis.py lines 357-486) find
their condition.  One flag per wait, in source order: the event cards
re-located (line 374), the event index in range (line 377), the card
clickable (line 382), a second window opened after the click (line 389), the
quantity question visible (line 402), the quantity dropdown visible
(line 407), the first Continue clickable (line 414), the second Continue
present and clickable (lines 421-430), the ticket-type question visible
(line 435), the E-Tickets radio clickable (line 440), the deferred-upload
("upload later") label clickable (line 449), and the final Continue
clickable (line 459). -/
structure EventWizardEnv where
  cardsWait : Bool
  cardIndexValid : Bool
  cardClickable : Bool
  newTabOpens : Bool
  quantityMarker : Bool
  quantityDropdownOk : Bool
  firstContinueOk : Bool
  secondContinueOk : Bool
  ticketTypeMarker : Bool
  eTicketsRadioOk : Bool
  deferredUploadMarker : Bool
  finalContinueOk : Bool
deriving DecidableEq

/-- `interact_with_event_and_select_tickets` (runthis.py lines 357-486).
The function first switches to the original window (line 371).  A timeout at
any bounded wait jumps to the handler at lines 468-477, which closes every
non-original window, switches back to the original and returns False.  The
out-of-range index check (lines 377-379) returns False without that cleanup.
On success the function returns True with the new tab current (it never
closes the new tab itself). -/
def interact_with_event_and_select_tickets (env : EventWizardEnv)
    (original : Nat) (st0 : BrowserState) : Bool × BrowserState :=
  let st1 := switchTo st0 original
  if env.cardsWait = false then (false, closeAllSecondaries original st1)
  else if env.cardIndexValid = false then (false, st1)
  else if env.cardClickable = false then (false, closeAllSecondaries original st1)
  else if env.newTabOpens = false then (false, closeAllSecondaries original st1)
  else
    let st2 : BrowserState :=
      { st1 with handles := st1.handles ++ [st1.nextId], nextId := st1.nextId + 1 }
    let st3 := switchTo st2 st1.nextId
    if env.quantityMarker = false then (false, closeAllSecondaries original st3)
    else if env.quantityDropdownOk = false then (false, closeAllSecondaries original st3)
    else if env.firstContinueOk = false then (false, closeAllSecondaries original st3)
    else if env.secondContinueOk = false then (false, closeAllSecondaries original st3)
    else if env.ticketTypeMarker = false then (false, closeAllSecondaries original st3)
    else if env.eTicketsRadioOk = false then (false, closeAllSecondaries original st3)
    else if env.deferredUploadMarker = false then (false, closeAllSecondaries original st3)
    else if env.finalContinueOk = false then (false, closeAllSecondaries original st3)
    else (true, st3)

/-- The state reached by `interact_with_event_and_select_tickets` once it has
clicked the card and switched to the newly opened tab (runthis.py
lines 385-399): the new handle is appended and becomes current. -/
def openedTabState (st : BrowserState) : BrowserState :=
  ⟨st.handles ++ [st.nextId], st.nextId, st.nextId + 1⟩

/-- Which of the bounded waits inside `interact_with_ticket_price_page`
(runthis.py lines 563-665) find their condition: the price input visible
with its value (line 573), the compare link clickable (line 579), whether
the compare click opens a new window, whether the disjunctive wait at
line 590 succeeds when no new window opened (address change or
listings marker), the listings container present (line 607), and the page
height before scrolling plus the per-iteration scroll observations. -/
structure PricePageEnv where
  priceValue : Option String
  compareClickable : Bool
  compareOpensNewTab : Bool
  compareWaitOk : Bool
  containerAppears : Bool
  initialHeight : Nat
  scrollObs : List (List Listing × Nat)
deriving DecidableEq

/-- `interact_with_ticket_price_page` (runthis.py lines 563-665).  A timeout
jumps to the handler at lines 660-662, which returns `(None, [])` WITHOUT
closing any window the function opened and WITHOUT switching back: in
particular a compare tab opened and switched to (lines 599-605) before the
listings-container timeout (line 607) stays open and current.  On the
successful path with a new compare tab, the tab is closed and the driver
switches to the first old handle still open (lines 650-656). -/
def interact_with_ticket_price_page (env : PricePageEnv) (st0 : BrowserState) :
    (Option String × List Listing) × BrowserState :=
  match env.priceValue with
  | none => ((none, []), st0)
  | some price =>
    if env.compareClickable = false then ((none, []), st0)
    else
      let oldHandles := st0.handles
      if env.compareOpensNewTab then
        let newTab := st0.nextId
        let st1 : BrowserState := ⟨st0.handles ++ [newTab], st0.current, st0.nextId + 1⟩
        let st2 := switchTo st1 newTab
        if env.containerAppears = false then ((none, []), st2)
        else
          let listings := scrollLoop [] env.initialHeight env.scrollObs
          let st3 : BrowserState :=
            { st2 with handles := st2.handles.filter (fun h => !(h == newTab)) }
          let st4 :=
            match oldHandles.find? (fun wh => st3.handles.contains wh) with
            | some wh => switchTo st3 wh
            | none => st3
          ((some price, listings), st4)
      else
        if env.compareWaitOk = false then ((none, []), st0)
        else if env.containerAppears = false then ((none, []), st0)
        else ((some price, scrollLoop [] env.initialHeight env.scrollObs), st0)

/-- `wait_for_manual_login` (runthis.py lines 202-220): the post-login
marker appearing within the bound lets the run continue; its absence calls
`exit(1)`, modelled as the error code 1. -/
def wait_for_manual_login (markerAppears : Bool) : Except Nat Unit :=
  if markerAppears then Except.ok () else Except.error 1

/-- The process-level behavior of `main` (runthis.py lines 82-196 and
lines 216-220): `exit(1)` on a login timeout terminates the process with a
non-zero status (the `SystemExit` it raises is not an `Exception` and passes
the handler at line 190); every failure inside the scraping body is caught
by that handler and merely logged, so the process ends with status 0.
The second component is the accumulated row list. -/
def runScraper (loginMarkerAppears : Bool) (events : List EventRun) :
    Nat × List OutputRow :=
  match wait_for_manual_login loginMarkerAppears with
  | Except.error code => (code, [])
  | Except.ok _ => (0, mainProcess events)

/-- Keys of an association-list dict, in order. -/
def keysOf (d : List (String × Event)) : List String :=
  d.map Prod.fst

/-- Lookup of the first entry with the given key. -/
def lookupKey (k : String) : List (String × Event) → Option Event
  | [] => none
  | p :: t => if p.1 == k then some p.2 else lookupKey k t

/-- Modelled from the spec: the unique key sequence in first-seen order
("first-seen order, keyed by ..."): a key is kept at its first occurrence
and dropped at every later one.  `seen` holds the keys already emitted. -/
def firstSeen (seen : List String) : List String → List String
  | [] => []
  | k :: ks => if k ∈ seen then firstSeen seen ks else k :: firstSeen (k :: seen) ks

/-- The last event of the list whose `eventKey` is `k`, if any. -/
def lastWithKey (k : String) : List Event → Option Event
  | [] => none
  | e :: t =>
    match lastWithKey k t with
    | some v => some v
    | none => if eventKey e == k then some e else none

/-- Example events for evaluation: same name, date and location, different
times. -/
def evShow7pm : Event := ⟨"Apr 1", "7pm", "Show", "Arena"⟩

def evShow8pm : Event := ⟨"Apr 1", "8pm", "Show", "Arena"⟩

/-- The retained example of the spec: only the time field is the sentinel. -/
def evRetained : Event := ⟨"Apr 1", NA, "Show", "Arena"⟩

def sampleListing : Listing := ⟨"Lot B Parking", "45", "1 pass", "4.5", "Great"⟩

def goodSeat : SeatOutcome := ⟨"Lot A", true, some "25", [sampleListing]⟩

/-- A seat whose selection confirm timed out: `select_seat_in_dropdown`
returned False. -/
def failSeat : SeatOutcome := ⟨"Lot F", false, none, []⟩

def goodEvent : EventRun := ⟨⟨"May 5", "7pm", "Game", "Arena"⟩, true, [goodSeat]⟩

def failEvent : EventRun := ⟨⟨"May 5", "7pm", "Game", "Arena"⟩, false, []⟩

/-- An event whose first seat fails selection and whose second seat
succeeds with one listing. -/
def mixedSeatsEvent : EventRun :=
  ⟨⟨"May 5", "7pm", "Game", "Arena"⟩, true, [failSeat, goodSeat]⟩

def listingsThree : List Listing :=
  [⟨"L1", "10", "1 pass", "4", "Good"⟩,
   ⟨"L2", "20", "1 pass", "5", "Great"⟩,
   ⟨"L3", "30", "1 pass", "3", "Fair"⟩]

def seatA : SeatOutcome := ⟨"Lot A", true, some "25", listingsThree⟩

def seatB : SeatOutcome := ⟨"Lot B", true, some "35", listingsThree⟩

def eventOne : EventRun := ⟨⟨"May 5", "7pm", "Game 1", "Arena"⟩, true, [seatA, seatB]⟩

def eventTwo : EventRun := ⟨⟨"May 6", "8pm", "Game 2", "Arena"⟩, true, [seatA, seatB]⟩

/-- Two events with two seats each, three listings per seat. -/
def twoByTwoByThree : List EventRun := [eventOne, eventTwo]

/-- A wizard environment in which every bounded wait succeeds. -/
def envAllOk : EventWizardEnv :=
  ⟨true, true, true, true, true, true, true, true, true, true, true, true⟩

/-- Every wait succeeds except that the deferred-upload label never
appears. -/
def envNoDeferred : EventWizardEnv := { envAllOk with deferredUploadMarker := false }

/-- Every wait succeeds up to opening the new tab, then the quantity
question never appears. -/
def envAbortQuantity : EventWizardEnv := { envAllOk with quantityMarker := false }

/-- A browser with only the primary window open and current. -/
def startState : BrowserState := ⟨[0], 0, 1⟩

/-- A browser during event processing: the primary window 0 and the event
tab 1 are open, the event tab is current. -/
def eventTabState : BrowserState := ⟨[0, 1], 1, 2⟩

/-- A price page where the compare click opens a new tab and the listings
container then never appears. -/
def envLeak : PricePageEnv := ⟨some "12", true, true, true, false, 100, []⟩

/-! ### Theorems -/

/-- Claim C4: the placeholder filter removes an event if and only if all
four of its fields equal the missing-sentinel; an event with only some
sentinel fields is retained. -/
theorem filter_removes_exactly_all_sentinel (es : List Event) (e : Event) :
    e ∈ filterPlaceholders es ↔
      e ∈ es ∧ ¬(e.date = NA ∧ e.time = NA ∧ e.name = NA ∧ e.location = NA) := by
  rw [filterPlaceholders, List.mem_filter]
  have hp : isPlaceholder e = true ↔
      (e.date = NA ∧ e.time = NA ∧ e.name = NA ∧ e.location = NA) := by
    simp [isPlaceholder, and_assoc]
  constructor
  · rintro ⟨h1, h2⟩
    exact ⟨h1, fun hc => by simp [hp.mpr hc] at h2⟩
  · rintro ⟨h1, h2⟩
    refine ⟨h1, ?_⟩
    rw [Bool.not_eq_true']
    cases hb : isPlaceholder e with
    | false => rfl
    | true => exact absurd (hp.mp hb) h2

/-- Witness for claim C4 at the spec's own example: an event whose time
field alone is the sentinel is retained by the filter. -/
theorem filter_removes_exactly_all_sentinel_witness :
    evRetained ∈ filterPlaceholders [evRetained] :=
  (filter_removes_exactly_all_sentinel [evRetained] evRetained).mpr
    ⟨by decide, by decide⟩

/-- Counterexample to claim C3: in `mixedSeatsEvent` the first seat's
selection confirm timed out (`select_seat_in_dropdown` returned False), yet
the event still contributes the row of its second seat — one row, not zero:
the run proceeds with the next seat of the same event, not with the next
event. -/
theorem seat_timeout_aborts_event_counterexample :
    failSeat.selectSuccess = false
    ∧ (mainProcess [mixedSeatsEvent]).length = 1
    ∧ (mainProcess [mixedSeatsEvent]).map OutputRow.selected_seat = ["Lot A"] := by
  decide

/-- Claim C3 (amended): a timeout during the seat-selection confirm step
aborts only that seat — the seat contributes zero rows and processing
proceeds with the next seat of the same event, whose rows are kept. -/
theorem seat_failure_skips_only_that_seat (e : Event) (s : SeatOutcome)
    (seats : List SeatOutcome) (h : s.selectSuccess = false) :
    processSeat e s = []
    ∧ processEvent ⟨e, true, s :: seats⟩ = processEvent ⟨e, true, seats⟩ := by
  have h1 : processSeat e s = [] := by
    unfold processSeat
    rw [h]
    simp
  refine ⟨h1, ?_⟩
  unfold processEvent
  simp [h1]

/-- Witness for the amended claim C3 at the concrete mixed event. -/
theorem seat_failure_skips_only_that_seat_witness :
    processSeat mixedSeatsEvent.info failSeat = []
    ∧ processEvent ⟨mixedSeatsEvent.info, true, failSeat :: [goodSeat]⟩
        = processEvent ⟨mixedSeatsEvent.info, true, [goodSeat]⟩ :=
  seat_failure_skips_only_that_seat mixedSeatsEvent.info failSeat [goodSeat] rfl

/-- Claim C9: the process exits with a non-zero status exactly when the
bounded wait for the post-login marker expires; with login detected the
status is zero, even for a run in which every event unit fails. -/
theorem exit_nonzero_iff_login_timeout (loginOk : Bool) (events : List EventRun) :
    ((runScraper loginOk events).1 ≠ 0 ↔ loginOk = false)
    ∧ (∀ evs : List EventRun, (∀ ev ∈ evs, ev.interactSuccess = false) →
        (runScraper true evs).1 = 0) := by
  constructor
  · cases loginOk <;> simp [runScraper, wait_for_manual_login]
  · intro evs _
    rfl

/-- Witness for claim C9: a run whose only event unit fails still exits 0. -/
theorem exit_nonzero_iff_login_timeout_witness :
    (runScraper true [failEvent]).1 = 0 :=
  (exit_nonzero_iff_login_timeout true [failEvent]).2 [failEvent] (by decide)

/-- Claim C10: at most MAX_EVENTS_TO_SCRAPE events are processed: appending
further (even valid) events to a list already at the cap changes nothing,
and the output only depends on the first MAX_EVENTS_TO_SCRAPE events. -/
theorem events_beyond_cap_ignored (events extra : List EventRun)
    (h : MAX_EVENTS_TO_SCRAPE ≤ events.length) :
    mainProcess (events ++ extra) = mainProcess events
    ∧ mainProcess events = mainProcess (events.take MAX_EVENTS_TO_SCRAPE) := by
  constructor
  · unfold mainProcess
    rw [List.take_append_of_le_length h]
  · unfold mainProcess
    rw [List.take_take, Nat.min_self]

/-- Witness for claim C10: a ninth valid event appended after eight is
ignored. -/
theorem events_beyond_cap_ignored_witness :
    mainProcess (List.replicate 8 goodEvent ++ [goodEvent])
        = mainProcess (List.replicate 8 goodEvent)
    ∧ mainProcess (List.replicate 8 goodEvent)
        = mainProcess ((List.replicate 8 goodEvent).take MAX_EVENTS_TO_SCRAPE) :=
  events_beyond_cap_ignored (List.replicate 8 goodEvent) [goodEvent] (by decide)

/-- Counterexample to claim C1: nine valid events, one seat per event, one
listing per seat, every unit succeeding.  The claim demands 9 = 9 * 1 * 1
output rows; the run produces only 8, because of the
MAX_EVENTS_TO_SCRAPE cap. -/
theorem rows_product_counterexample :
    (List.replicate 9 goodEvent).length = 9
    ∧ (∀ ev ∈ List.replicate 9 goodEvent,
        ev.interactSuccess = true ∧ ev.seats.length = 1
        ∧ ∀ s ∈ ev.seats, s.selectSuccess = true ∧ s.price.isSome = true
            ∧ s.listings.length = 1)
    ∧ (mainProcess (List.replicate 9 goodEvent)).length = 8 := by
  decide

/-- Claim C5: the scroll-collect loop extracts, on every iteration, exactly
the items beyond the previously-collected count; over the stable extent
sequence [100, 100] it stops at once with the items of the single render,
each extracted once, and over [100, 200, 200] with a second render
extending the first it returns the union of both renders with no duplicate
extraction of the already-seen prefix. -/
theorem scroll_collect_extracts_each_item_once (v w : List Listing) :
    (∀ (collected visible : List Listing) (n : Nat) (rest : List (List Listing × Nat)),
       scrollLoop collected n ((visible, n) :: rest)
         = collected ++ visible.drop collected.length)
    ∧ scrollLoop [] 100 [(v, 100)] = v
    ∧ scrollLoop [] 100 [(v, 200), (v ++ w, 200)] = v ++ w := by
  refine ⟨?_, ?_, ?_⟩
  · intro collected visible n rest
    simp [scrollLoop]
  · simp [scrollLoop]
  · simp [scrollLoop, List.drop_left]

/-- Shape analysis of the event wizard: every run either aborts through a
wait timeout before the new tab is open (cleanup applied to the entry
state), aborts on the out-of-range index check (no cleanup), aborts through
a wait timeout after the new tab is open (cleanup applied to the opened
state), or succeeds with the new tab current — and success requires the
deferred-upload marker to have appeared. -/
theorem interact_event_cases (env : EventWizardEnv) (original : Nat)
    (st : BrowserState) :
    interact_with_event_and_select_tickets env original st
        = (false, closeAllSecondaries original (switchTo st original))
    ∨ (interact_with_event_and_select_tickets env original st
         = (false, switchTo st original) ∧ env.cardIndexValid = false)
    ∨ interact_with_event_and_select_tickets env original st
        = (false, closeAllSecondaries original (openedTabState st))
    ∨ (interact_with_event_and_select_tickets env original st
         = (true, openedTabState st) ∧ env.deferredUploadMarker = true) := by
  simp only [interact_with_event_and_select_tickets]
  by_cases h1 : env.cardsWait = false
  · simp only [if_pos h1]
    exact Or.inl (by trivial)
  simp only [if_neg h1]
  by_cases h2 : env.cardIndexValid = false
  · simp only [if_pos h2]
    exact Or.inr (Or.inl ⟨by trivial, h2⟩)
  simp only [if_neg h2]
  by_cases h3 : env.cardClickable = false
  · simp only [if_pos h3]
    exact Or.inl (by trivial)
  simp only [if_neg h3]
  by_cases h4 : env.newTabOpens = false
  · simp only [if_pos h4]
    exact Or.inl (by trivial)
  simp only [if_neg h4]
  by_cases h5 : env.quantityMarker = false
  · simp only [if_pos h5]
    exact Or.inr (Or.inr (Or.inl (by trivial)))
  simp only [if_neg h5]
  by_cases h6 : env.quantityDropdownOk = false
  · simp only [if_pos h6]
    exact Or.inr (Or.inr (Or.inl (by trivial)))
  simp only [if_neg h6]
  by_cases h7 : env.firstContinueOk = false
  · simp only [if_pos h7]
    exact Or.inr (Or.inr (Or.inl (by trivial)))
  simp only [if_neg h7]
  by_cases h8 : env.secondContinueOk = false
  · simp only [if_pos h8]
    exact Or.inr (Or.inr (Or.inl (by trivial)))
  simp only [if_neg h8]
  by_cases h9 : env.ticketTypeMarker = false
  · simp only [if_pos h9]
    exact Or.inr (Or.inr (Or.inl (by trivial)))
  simp only [if_neg h9]
  by_cases h10 : env.eTicketsRadioOk = false
  · simp only [if_pos h10]
    exact Or.inr (Or.inr (Or.inl (by trivial)))
  simp only [if_neg h10]
  by_cases h11 : env.deferredUploadMarker = false
  · simp only [if_pos h11]
    exact Or.inr (Or.inr (Or.inl (by trivial)))
  simp only [if_neg h11]
  by_cases h12 : env.finalContinueOk = false
  · simp only [if_pos h12]
    exact Or.inr (Or.inr (Or.inl (by trivial)))
  simp only [if_neg h12]
  refine Or.inr (Or.inr (Or.inr ⟨by trivial, ?_⟩))
  cases hb : env.deferredUploadMarker
  · exact absurd hb h11
  · rfl

/-- Counterexample to claim C7: in an environment in which every bounded
wait succeeds except that the deferred-upload marker is absent, the wizard
aborts the whole event (returns False); flipping only that marker makes it
succeed.  The absence is fatal to the event, not silently skipped. -/
theorem deferred_upload_absent_counterexample :
    (interact_with_event_and_select_tickets envNoDeferred 0 startState).1 = false
    ∧ (interact_with_event_and_select_tickets envAllOk 0 startState).1 = true := by
  decide

/-- Claim C7 (amended): the deferred-upload step is not optional: whenever
the "upload later" marker is absent, the bounded wait for it times out and
the whole event is aborted — the wizard returns False and the flow never
reaches seat selection for that event. -/
theorem deferred_upload_absent_aborts_event (env : EventWizardEnv)
    (original : Nat) (st : BrowserState)
    (h : env.deferredUploadMarker = false) :
    (interact_with_event_and_select_tickets env original st).1 = false := by
  rcases interact_event_cases env original st with h1 | ⟨h1, _⟩ | h1 | ⟨_, h2⟩
  · rw [h1]
  · rw [h1]
  · rw [h1]
  · rw [h] at h2
    cases h2

/-- Witness for the amended claim C7. -/
theorem deferred_upload_absent_aborts_event_witness :
    (interact_with_event_and_select_tickets envNoDeferred 0 startState).1 = false :=
  deferred_upload_absent_aborts_event envNoDeferred 0 startState rfl

/-- Counterexample to claim C8: a seat unit aborted by the unmet
listings-container wait after the compare click opened a new tab.  The
run entered with the primary window 0 and the event tab 1 open; the
secondary compare tab 2 stays open and stays current when the unit is
abandoned, so the primary context is not current at the next unit
boundary. -/
theorem context_restored_counterexample :
    (interact_with_ticket_price_page envLeak eventTabState).1 = (none, [])
    ∧ (interact_with_ticket_price_page envLeak eventTabState).2.current = 2
    ∧ (interact_with_ticket_price_page envLeak eventTabState).2.handles = [0, 1, 2] := by
  decide

/-- Claim C8 (amended): when the event wizard aborts an event through an
unmet wait, every secondary context is closed and the primary is current
again before the next unit; but when a seat is aborted by the unmet
listings-container wait of the price/compare step after the compare click
opened a new context, that secondary context remains open and current — it
is only cleaned up later, at the event boundary. -/
theorem abort_cleanup_event_level_only (env : EventWizardEnv)
    (penv : PricePageEnv) (original : Nat) (st stp : BrowserState) (p : String)
    (hidx : env.cardIndexValid = true)
    (hmem : original ∈ st.handles)
    (hfresh : ∀ w ∈ st.handles, w < st.nextId)
    (habort : (interact_with_event_and_select_tickets env original st).1 = false)
    (hpv : penv.priceValue = some p)
    (hcc : penv.compareClickable = true)
    (hnt : penv.compareOpensNewTab = true)
    (hca : penv.containerAppears = false) :
    ((interact_with_event_and_select_tickets env original st).2.current = original
     ∧ (interact_with_event_and_select_tickets env original st).2.handles
         = st.handles.filter (fun w => w == original))
    ∧ ((interact_with_ticket_price_page penv stp).2.current = stp.nextId
       ∧ stp.nextId ∈ (interact_with_ticket_price_page penv stp).2.handles
       ∧ (interact_with_ticket_price_page penv stp).1 = (none, [])) := by
  constructor
  · have hne : (st.nextId == original) = false := by
      have hlt : original < st.nextId := hfresh original hmem
      exact beq_eq_false_iff_ne.mpr (Nat.ne_of_gt hlt)
    rcases interact_event_cases env original st with h1 | ⟨h1, h2⟩ | h1 | ⟨h1, _⟩
    · rw [h1]
      exact ⟨rfl, rfl⟩
    · rw [hidx] at h2
      cases h2
    · rw [h1]
      refine ⟨rfl, ?_⟩
      simp [closeAllSecondaries, openedTabState, switchTo, List.filter_append, hne]
    · rw [h1] at habort
      cases habort
  · simp only [interact_with_ticket_price_page, hpv, hcc, hnt, hca]
    simp [switchTo]

/-- Witness for the amended claim C8: the wizard aborted after opening its
tab (quantity marker absent) cleans up to the primary window, while the
price page aborted on the listings container leaves tab 2 open and
current. -/
theorem abort_cleanup_event_level_only_witness :
    ((interact_with_event_and_select_tickets envAbortQuantity 0 startState).2.current = 0
     ∧ (interact_with_event_and_select_tickets envAbortQuantity 0 startState).2.handles
         = startState.handles.filter (fun w => w == 0))
    ∧ ((interact_with_ticket_price_page envLeak eventTabState).2.current = eventTabState.nextId
       ∧ eventTabState.nextId ∈ (interact_with_ticket_price_page envLeak eventTabState).2.handles
       ∧ (interact_with_ticket_price_page envLeak eventTabState).1 = (none, [])) :=
  abort_cleanup_event_level_only envAbortQuantity envLeak 0 startState eventTabState
    "12" rfl (by decide) (by decide) (by decide) rfl rfl rfl rfl

/-- Helper: a fully successful seat contributes exactly one row per
listing. -/
theorem processSeat_length (e : Event) (s : SeatOutcome)
    (hs : s.selectSuccess = true) (hp : s.price.isSome = true) :
    (processSeat e s).length = s.listings.length := by
  rcases Option.isSome_iff_exists.mp hp with ⟨p, hps⟩
  by_cases he : s.listings.isEmpty
  · simp [processSeat, hs, hps, he, List.isEmpty_iff.mp he]
  · simp [processSeat, hs, hps, he]

/-- Helper: a list of fully successful seats with L listings each yields
seats * L rows. -/
theorem seat_list_rows_length (e : Event) (L : Nat) :
    ∀ seats : List SeatOutcome,
      (∀ s ∈ seats, s.selectSuccess = true ∧ s.price.isSome = true
          ∧ s.listings.length = L) →
      ((seats.map (processSeat e)).flatten).length = seats.length * L := by
  intro seats
  induction seats with
  | nil => intro _; simp
  | cons s t ih =>
    intro h
    have hs := h s (List.mem_cons_self s t)
    have ht : ∀ x ∈ t, x.selectSuccess = true ∧ x.price.isSome = true
        ∧ x.listings.length = L := fun x hx => h x (List.mem_cons_of_mem s hx)
    simp only [List.map_cons, List.flatten_cons, List.length_append,
      List.length_cons]
    rw [processSeat_length e s hs.1 hs.2.1, hs.2.2, ih ht]
    ring

/-- Helper: a list of fully successful events with S seats of L listings
each yields events * (S * L) rows. -/
theorem event_list_rows_length (S L : Nat) :
    ∀ evs : List EventRun,
      (∀ ev ∈ evs, ev.interactSuccess = true ∧ ev.seats.length = S
          ∧ ∀ s ∈ ev.seats, s.selectSuccess = true ∧ s.price.isSome = true
              ∧ s.listings.length = L) →
      ((evs.map processEvent).flatten).length = evs.length * (S * L) := by
  intro evs
  induction evs with
  | nil => intro _; simp
  | cons ev t ih =>
    intro h
    have he := h ev (List.mem_cons_self ev t)
    have ht : ∀ x ∈ t, x.interactSuccess = true ∧ x.seats.length = S
        ∧ ∀ s ∈ x.seats, s.selectSuccess = true ∧ s.price.isSome = true
            ∧ s.listings.length = L := fun x hx => h x (List.mem_cons_of_mem ev hx)
    have h1 : (processEvent ev).length = S * L := by
      have h2 := seat_list_rows_length ev.info L ev.seats he.2.2
      simp [processEvent, he.1, h2, he.2.1]
    simp only [List.map_cons, List.flatten_cons, List.length_append,
      List.length_cons]
    rw [h1, ih ht]
    ring

/-- Helper: every output row originates from some event of the input, one
of its seats and one of that seat's listings, via `makeRow`. -/
theorem row_source (events : List EventRun) (row : OutputRow)
    (hrow : row ∈ mainProcess events) :
    ∃ ev ∈ events, ∃ s ∈ ev.seats, ∃ li ∈ s.listings, ∃ p,
      s.price = some p ∧ row = makeRow ev.info s.label p li := by
  unfold mainProcess at hrow
  rw [List.mem_flatten] at hrow
  obtain ⟨l, hl, hrl⟩ := hrow
  rw [List.mem_map] at hl
  obtain ⟨ev, hev, rfl⟩ := hl
  refine ⟨ev, List.mem_of_mem_take hev, ?_⟩
  unfold processEvent at hrl
  by_cases hi : ev.interactSuccess = false
  · rw [if_pos hi] at hrl
    cases hrl
  · rw [if_neg hi] at hrl
    rw [List.mem_flatten] at hrl
    obtain ⟨l2, hl2, hrl2⟩ := hrl
    rw [List.mem_map] at hl2
    obtain ⟨s, hs, rfl⟩ := hl2
    refine ⟨s, hs, ?_⟩
    unfold processSeat at hrl2
    by_cases hss : s.selectSuccess = false
    · rw [if_pos hss] at hrl2
      cases hrl2
    · rw [if_neg hss] at hrl2
      rcases hps : s.price with _ | p
      · simp only [hps] at hrl2
        cases hrl2
      · simp only [hps] at hrl2
        by_cases hemp : s.listings.isEmpty
        · rw [if_pos hemp] at hrl2
          cases hrl2
        · rw [if_neg hemp] at hrl2
          rw [List.mem_map] at hrl2
          obtain ⟨li, hli, heq⟩ := hrl2
          exact ⟨li, hli, p, rfl, heq.symm⟩

/-- Claim C1 (amended): over E valid events with S seats per event and L
listings per seat, all units succeeding, the run produces exactly
min(E, MAX_EVENTS_TO_SCRAPE) * S * L output rows — one per
(event, seat, listing) triple among the first MAX_EVENTS_TO_SCRAPE events,
never deduplicated — and every row copies the date, time, name and location
of its event, the label of its seat and the per-ticket price unchanged. -/
theorem rows_are_capped_event_seat_listing_product (events : List EventRun)
    (E S L : Nat) (hE : events.length = E)
    (h : ∀ ev ∈ events, ev.interactSuccess = true ∧ ev.seats.length = S
        ∧ ∀ s ∈ ev.seats, s.selectSuccess = true ∧ s.price.isSome = true
            ∧ s.listings.length = L) :
    (mainProcess events).length = min E MAX_EVENTS_TO_SCRAPE * S * L
    ∧ ∀ row ∈ mainProcess events,
        ∃ ev ∈ events, ∃ s ∈ ev.seats, ∃ li ∈ s.listings, ∃ p,
          s.price = some p
          ∧ row.event_date = ev.info.date ∧ row.event_time = ev.info.time
          ∧ row.event_name = ev.info.name ∧ row.event_location = ev.info.location
          ∧ row.selected_seat = s.label ∧ row.per_ticket_price = p
          ∧ row.listing_title = li.title ∧ row.listing_price = li.price
          ∧ row.listing_passes = li.passes
          ∧ row.listing_rating_score = li.rating_score
          ∧ row.listing_rating_label = li.rating_label := by
  constructor
  · unfold mainProcess
    have hs : ∀ ev ∈ events.take MAX_EVENTS_TO_SCRAPE,
        ev.interactSuccess = true ∧ ev.seats.length = S
        ∧ ∀ s ∈ ev.seats, s.selectSuccess = true ∧ s.price.isSome = true
            ∧ s.listings.length = L :=
      fun ev hv => h ev (List.mem_of_mem_take hv)
    rw [event_list_rows_length S L _ hs, List.length_take, hE, Nat.min_comm]
    ring
  · intro row hrow
    obtain ⟨ev, hev, s, hsm, li, hli, p, hp, heq⟩ := row_source events row hrow
    subst heq
    exact ⟨ev, hev, s, hsm, li, hli, p, hp, rfl, rfl, rfl, rfl, rfl, rfl, rfl,
      rfl, rfl, rfl, rfl⟩

/-- Witness for the amended claim C1 at the spec's 2 x 2 x 3 example:
twelve rows. -/
theorem rows_are_capped_event_seat_listing_product_witness :
    (mainProcess twoByTwoByThree).length = min 2 MAX_EVENTS_TO_SCRAPE * 2 * 3 :=
  (rows_are_capped_event_seat_listing_product twoByTwoByThree 2 2 3 rfl
    (by decide)).1

/-- `firstSeen` only depends on the membership of `seen`. -/
theorem firstSeen_congr (ks : List String) :
    ∀ seen seen' : List String, (∀ k, k ∈ seen ↔ k ∈ seen') →
      firstSeen seen ks = firstSeen seen' ks := by
  induction ks with
  | nil => intro seen seen' _; rfl
  | cons k t ih =>
    intro seen seen' h
    simp only [firstSeen]
    by_cases hk : k ∈ seen
    · rw [if_pos hk, if_pos ((h k).mp hk)]
      exact ih seen seen' h
    · rw [if_neg hk, if_neg (fun hc => hk ((h k).mpr hc))]
      have h2 := ih (k :: seen) (k :: seen') (fun x => by
        simp only [List.mem_cons]
        exact or_congr Iff.rfl (h x))
      rw [h2]

/-- Splitting `firstSeen` over an appended key list: keys of the first part
count as seen for the second. -/
theorem firstSeen_append (ks₁ : List String) :
    ∀ (seen ks₂ : List String),
      firstSeen seen (ks₁ ++ ks₂)
        = firstSeen seen ks₁ ++ firstSeen (ks₁ ++ seen) ks₂ := by
  induction ks₁ with
  | nil => intro seen ks₂; simp [firstSeen]
  | cons k t ih =>
    intro seen ks₂
    simp only [List.cons_append, firstSeen, List.append_eq]
    by_cases hk : k ∈ seen
    · rw [if_pos hk, if_pos hk, ih seen ks₂]
      congr 1
      apply firstSeen_congr
      intro x
      simp only [List.mem_append, List.mem_cons]
      constructor
      · tauto
      · rintro (rfl | hx | hx)
        · exact Or.inr hk
        · exact Or.inl hx
        · exact Or.inr hx
    · rw [if_neg hk, if_neg hk, ih (k :: seen) ks₂]
      simp only [List.cons_append, List.singleton_append]
      congr 2
      apply firstSeen_congr
      intro x
      simp only [List.mem_append, List.mem_cons]
      tauto

/-- Keys already seen produce nothing. -/
theorem firstSeen_nil_of_subset (ks : List String) :
    ∀ seen, (∀ k ∈ ks, k ∈ seen) → firstSeen seen ks = [] := by
  induction ks with
  | nil => intro seen _; rfl
  | cons k t ih =>
    intro seen h
    simp only [firstSeen]
    rw [if_pos (h k (List.mem_cons_self k t))]
    exact ih seen (fun x hx => h x (List.mem_cons_of_mem k hx))

/-- Membership in `firstSeen`. -/
theorem mem_firstSeen (k : String) (ks : List String) :
    ∀ seen, k ∈ firstSeen seen ks ↔ (k ∈ ks ∧ k ∉ seen) := by
  induction ks with
  | nil => intro seen; simp [firstSeen]
  | cons a t ih =>
    intro seen
    simp only [firstSeen]
    by_cases ha : a ∈ seen
    · rw [if_pos ha, ih seen]
      simp only [List.mem_cons]
      constructor
      · rintro ⟨hk, hn⟩
        exact ⟨Or.inr hk, hn⟩
      · rintro ⟨hak | hk, hn⟩
        · subst hak
          exact absurd ha hn
        · exact ⟨hk, hn⟩
    · rw [if_neg ha]
      simp only [List.mem_cons, ih (a :: seen), List.mem_cons]
      by_cases hk : k = a
      · subst hk
        simp [ha]
      · simp [hk]

/-- `firstSeen` has no duplicates. -/
theorem firstSeen_nodup (ks : List String) :
    ∀ seen, (firstSeen seen ks).Nodup := by
  induction ks with
  | nil => intro seen; simp [firstSeen]
  | cons a t ih =>
    intro seen
    simp only [firstSeen]
    by_cases ha : a ∈ seen
    · rw [if_pos ha]
      exact ih seen
    · rw [if_neg ha]
      rw [List.nodup_cons]
      refine ⟨fun hmem => ?_, ih (a :: seen)⟩
      rw [mem_firstSeen] at hmem
      exact hmem.2 (List.mem_cons_self a seen)

/-- The `any` test used by `dictInsert` is key membership. -/
theorem any_key_iff (d : List (String × Event)) (k : String) :
    (d.any (fun p => p.1 == k)) = true ↔ k ∈ keysOf d := by
  rw [List.any_eq_true]
  constructor
  · rintro ⟨p, hp, he⟩
    exact List.mem_map.mpr ⟨p, hp, beq_iff_eq.mp he⟩
  · intro hk
    obtain ⟨p, hp, he⟩ := List.mem_map.mp hk
    exact ⟨p, hp, beq_iff_eq.mpr he⟩

/-- Keys of a dict after one insertion. -/
theorem keysOf_dictInsert (d : List (String × Event)) (k : String) (v : Event) :
    keysOf (dictInsert d k v)
      = if k ∈ keysOf d then keysOf d else keysOf d ++ [k] := by
  unfold dictInsert
  by_cases h : k ∈ keysOf d
  · rw [if_pos ((any_key_iff d k).mpr h), if_pos h]
    unfold keysOf
    rw [List.map_map]
    apply List.map_congr_left
    intro p _
    simp only [Function.comp]
    by_cases hpk : (p.1 == k) = true
    · rw [if_pos hpk]
      exact (beq_iff_eq.mp hpk).symm
    · rw [if_neg hpk]
  · rw [if_neg (fun hc => h ((any_key_iff d k).mp hc)), if_neg h]
    simp [keysOf]

/-- A key is absent from a dict exactly when lookup yields nothing. -/
theorem lookupKey_eq_none (k : String) :
    ∀ d : List (String × Event), lookupKey k d = none ↔ k ∉ keysOf d := by
  intro d
  induction d with
  | nil => simp [lookupKey, keysOf]
  | cons p t ih =>
    simp only [lookupKey, keysOf, List.map_cons, List.mem_cons]
    by_cases hp : (p.1 == k) = true
    · rw [if_pos hp]
      have hk : p.1 = k := beq_iff_eq.mp hp
      simp [hk]
    · rw [if_neg hp]
      have hne : k ≠ p.1 := fun hc => hp (beq_iff_eq.mpr hc.symm)
      simp only [keysOf] at ih
      simp [ih, hne]

/-- Lookup distributes over appended dicts. -/
theorem lookupKey_append (k : String) (d₁ d₂ : List (String × Event)) :
    lookupKey k (d₁ ++ d₂)
      = match lookupKey k d₁ with
        | some v => some v
        | none => lookupKey k d₂ := by
  induction d₁ with
  | nil => simp [lookupKey]
  | cons p t ih =>
    simp only [List.cons_append, lookupKey, List.append_eq]
    by_cases hp : (p.1 == k) = true
    · rw [if_pos hp, if_pos hp]
    · rw [if_neg hp, if_neg hp, ih]

/-- Updating every entry holding key `k` makes lookup of `k` find the new
value, provided `k` occurs. -/
theorem lookupKey_map_update (k : String) (v : Event) :
    ∀ d : List (String × Event), k ∈ keysOf d →
      lookupKey k (d.map (fun p => if p.1 == k then (k, v) else p)) = some v := by
  intro d
  induction d with
  | nil => intro h; cases h
  | cons p t ih =>
    intro h
    by_cases hp : (p.1 == k) = true
    · simp only [List.map_cons, if_pos hp, lookupKey]
      rw [if_pos (beq_iff_eq.mpr rfl)]
    · simp only [List.map_cons, if_neg hp, lookupKey]
      apply ih
      rcases List.mem_cons.mp h with hk | hk
      · exact absurd (beq_iff_eq.mpr hk.symm) hp
      · exact hk

/-- Updating entries with key `k` leaves lookups of other keys unchanged. -/
theorem lookupKey_map_update_ne (k k' : String) (v : Event) (hne : k' ≠ k) :
    ∀ d : List (String × Event),
      lookupKey k' (d.map (fun p => if p.1 == k then (k, v) else p))
        = lookupKey k' d := by
  intro d
  induction d with
  | nil => rfl
  | cons p t ih =>
    by_cases hp : (p.1 == k) = true
    · have hp1 : p.1 = k := beq_iff_eq.mp hp
      have h1 : ¬((k == k') = true) := fun hc => hne (beq_iff_eq.mp hc).symm
      have h2 : ¬((p.1 == k') = true) := by
        rw [hp1]
        exact h1
      simp only [List.map_cons, if_pos hp, lookupKey]
      rw [if_neg h1, if_neg h2]
      exact ih
    · simp only [List.map_cons, if_neg hp, lookupKey]
      by_cases hp' : (p.1 == k') = true
      · rw [if_pos hp', if_pos hp']
      · rw [if_neg hp', if_neg hp', ih]

/-- Inserting key `k` makes its lookup find the inserted value. -/
theorem lookupKey_dictInsert_self (d : List (String × Event)) (k : String)
    (v : Event) :
    lookupKey k (dictInsert d k v) = some v := by
  unfold dictInsert
  by_cases h : (d.any fun p => p.1 == k) = true
  · rw [if_pos h]
    exact lookupKey_map_update k v d ((any_key_iff d k).mp h)
  · rw [if_neg h]
    rw [lookupKey_append]
    have h0 : lookupKey k d = none :=
      (lookupKey_eq_none k d).mpr (fun hm => h ((any_key_iff d k).mpr hm))
    rw [h0]
    simp [lookupKey]

/-- Inserting key `k` leaves lookups of other keys unchanged. -/
theorem lookupKey_dictInsert_ne (d : List (String × Event)) (k k' : String)
    (v : Event) (hne : k' ≠ k) :
    lookupKey k' (dictInsert d k v) = lookupKey k' d := by
  unfold dictInsert
  by_cases h : (d.any fun p => p.1 == k) = true
  · rw [if_pos h]
    exact lookupKey_map_update_ne k k' v hne d
  · rw [if_neg h, lookupKey_append]
    cases hl : lookupKey k' d with
    | some w => rfl
    | none =>
      simp only [lookupKey]
      rw [if_neg (fun hc => hne (beq_iff_eq.mp hc).symm)]

/-- `lastWithKey` over an appended list prefers the second part. -/
theorem lastWithKey_append (k : String) (l₁ l₂ : List Event) :
    lastWithKey k (l₁ ++ l₂)
      = match lastWithKey k l₂ with
        | some v => some v
        | none => lastWithKey k l₁ := by
  induction l₁ with
  | nil => cases h : lastWithKey k l₂ <;> simp [lastWithKey, h]
  | cons e t ih =>
    simp only [List.cons_append, lastWithKey, List.append_eq, ih]
    cases h : lastWithKey k l₂ with
    | some w => rfl
    | none => rfl

/-- Lookup in the folded dict is the last occurrence of the key in the
event list, falling back to the initial dict. -/
theorem lookupKey_dictFold (k : String) :
    ∀ (es : List Event) (d : List (String × Event)),
      lookupKey k (dictFold d es)
        = match lastWithKey k es with
          | some v => some v
          | none => lookupKey k d := by
  intro es
  induction es with
  | nil => intro d; simp [dictFold, lastWithKey]
  | cons e t ih =>
    intro d
    have hfold : dictFold d (e :: t) = dictFold (dictInsert d (eventKey e) e) t :=
      rfl
    rw [hfold, ih]
    simp only [lastWithKey]
    cases h2 : lastWithKey k t with
    | some w => rfl
    | none =>
      by_cases hek : (eventKey e == k) = true
      · rw [if_pos hek]
        have hkk : eventKey e = k := beq_iff_eq.mp hek
        subst hkk
        exact lookupKey_dictInsert_self d (eventKey e) e
      · rw [if_neg hek]
        exact lookupKey_dictInsert_ne d (eventKey e) k e
          (fun hc => hek (beq_iff_eq.mpr hc.symm))

/-- Keys of the folded dict: the initial keys followed by the unseen input
keys in first-seen order. -/
theorem keysOf_dictFold :
    ∀ (es : List Event) (d : List (String × Event)),
      keysOf (dictFold d es)
        = keysOf d ++ firstSeen (keysOf d) (es.map eventKey) := by
  intro es
  induction es with
  | nil => intro d; simp [dictFold, firstSeen]
  | cons e t ih =>
    intro d
    have hfold : dictFold d (e :: t) = dictFold (dictInsert d (eventKey e) e) t :=
      rfl
    rw [hfold, ih, keysOf_dictInsert]
    simp only [List.map_cons, firstSeen]
    by_cases hk : eventKey e ∈ keysOf d
    · rw [if_pos hk, if_pos hk]
    · rw [if_neg hk, if_neg hk]
      rw [List.append_assoc]
      congr 1
      simp only [List.singleton_append]
      congr 1
      apply firstSeen_congr
      intro x
      simp only [List.mem_append, List.mem_cons, List.mem_singleton]
      tauto

/-- The folded dict has pairwise distinct keys. -/
theorem keysOf_dictFold_nodup (es : List Event) :
    (keysOf (dictFold [] es)).Nodup := by
  rw [keysOf_dictFold es []]
  simp only [keysOf, List.map_nil, List.nil_append]
  exact firstSeen_nodup _ _

/-- Every entry of the folded dict carries the key of its value. -/
theorem dictFold_key_eq (es : List Event) :
    ∀ d : List (String × Event), (∀ p ∈ d, p.1 = eventKey p.2) →
      ∀ p ∈ dictFold d es, p.1 = eventKey p.2 := by
  induction es with
  | nil => intro d hd; exact hd
  | cons e t ih =>
    intro d hd
    have hfold : dictFold d (e :: t) = dictFold (dictInsert d (eventKey e) e) t :=
      rfl
    rw [hfold]
    apply ih
    intro p hp
    unfold dictInsert at hp
    by_cases h : (d.any fun q => q.1 == eventKey e) = true
    · rw [if_pos h] at hp
      rw [List.mem_map] at hp
      obtain ⟨q, hq, rfl⟩ := hp
      by_cases hqe : (q.1 == eventKey e) = true
      · rw [if_pos hqe]
      · rw [if_neg hqe]
        exact hd q hq
    · rw [if_neg h] at hp
      rw [List.mem_append] at hp
      rcases hp with hp | hp
      · exact hd p hp
      · rw [List.mem_singleton] at hp
        subst hp
        rfl

/-- A value surviving one insertion was in the dict or is the inserted
value. -/
theorem snd_dictInsert_mem (d : List (String × Event)) (k : String) (v : Event)
    (x : Event) (hx : x ∈ (dictInsert d k v).map Prod.snd) :
    x ∈ d.map Prod.snd ∨ x = v := by
  unfold dictInsert at hx
  by_cases h : (d.any fun q => q.1 == k) = true
  · rw [if_pos h] at hx
    rw [List.map_map, List.mem_map] at hx
    obtain ⟨q, hq, hqx⟩ := hx
    simp only [Function.comp] at hqx
    by_cases hqe : (q.1 == k) = true
    · rw [if_pos hqe] at hqx
      exact Or.inr hqx.symm
    · rw [if_neg hqe] at hqx
      exact Or.inl (List.mem_map.mpr ⟨q, hq, hqx⟩)
  · rw [if_neg h] at hx
    rw [List.map_append, List.mem_append] at hx
    rcases hx with hx | hx
    · exact Or.inl hx
    · simp only [List.map_cons, List.map_nil, List.mem_singleton] at hx
      exact Or.inr hx

/-- Every value of the folded dict is an initial value or an input event. -/
theorem dictFold_snd_mem (es : List Event) :
    ∀ d : List (String × Event),
      ∀ p ∈ dictFold d es, p.2 ∈ d.map Prod.snd ++ es := by
  induction es with
  | nil =>
    intro d p hp
    simp only [List.append_nil]
    exact List.mem_map.mpr ⟨p, hp, rfl⟩
  | cons e t ih =>
    intro d p hp
    have h1 := ih (dictInsert d (eventKey e) e) p hp
    rw [List.mem_append] at h1
    rcases h1 with h1 | h1
    · rcases snd_dictInsert_mem d (eventKey e) e p.2 h1 with h2 | h2
      · rw [List.mem_append]
        exact Or.inl h2
      · rw [h2]
        simp
    · simp [h1]

/-- Two dicts with the same duplicate-free keys and the same lookups are
equal. -/
theorem dict_ext :
    ∀ d d' : List (String × Event),
      keysOf d = keysOf d' → (keysOf d).Nodup →
      (∀ k, lookupKey k d = lookupKey k d') → d = d' := by
  intro d
  induction d with
  | nil =>
    intro d' hk _ _
    cases d' with
    | nil => rfl
    | cons q t' => cases hk
  | cons p t ih =>
    intro d' hk hnd hl
    cases d' with
    | nil => cases hk
    | cons q t' =>
      simp only [keysOf, List.map_cons, List.cons.injEq] at hk
      obtain ⟨hk1, hk2⟩ := hk
      have h0 := hl p.1
      simp only [lookupKey] at h0
      rw [if_pos (beq_iff_eq.mpr rfl), if_pos (beq_iff_eq.mpr hk1.symm)] at h0
      have hv : p.2 = q.2 := Option.some.inj h0
      simp only [keysOf, List.map_cons, List.nodup_cons] at hnd
      have hnmem : p.1 ∉ List.map Prod.fst t := hnd.1
      have hnmem' : p.1 ∉ List.map Prod.fst t' := by
        rw [← hk2]
        exact hnmem
      have htl : ∀ k, lookupKey k t = lookupKey k t' := by
        intro k
        by_cases hkp : k = p.1
        · subst hkp
          rw [(lookupKey_eq_none p.1 t).mpr hnmem,
            (lookupKey_eq_none p.1 t').mpr hnmem']
        · have h3 := hl k
          simp only [lookupKey] at h3
          rw [if_neg (fun hc => hkp (beq_iff_eq.mp hc).symm),
            if_neg (fun hc => hkp (hk1 ▸ (beq_iff_eq.mp hc).symm))] at h3
          exact h3
      have ht := ih t' hk2 hnd.2 htl
      have hpq : p = q := Prod.ext hk1 hv
      rw [hpq, ht]

/-- `lastWithKey` succeeds for the key of a member. -/
theorem lastWithKey_isSome_of_mem (e : Event) :
    ∀ l : List Event, e ∈ l → ∃ v, lastWithKey (eventKey e) l = some v := by
  intro l
  induction l with
  | nil => intro h; cases h
  | cons a t ih =>
    intro h
    simp only [lastWithKey]
    cases h2 : lastWithKey (eventKey e) t with
    | some w => exact ⟨w, rfl⟩
    | none =>
      rcases List.mem_cons.mp h with rfl | ht
      · rw [if_pos (beq_iff_eq.mpr rfl)]
        exact ⟨e, rfl⟩
      · obtain ⟨v, hv⟩ := ih ht
        rw [hv] at h2
        cases h2

/-- Claim C6: merge is idempotent over repeated passes: one pass and the
same pass twice produce the same unique event sequence. -/
theorem merge_idempotent (P : List Event) : merge [P] = merge [P, P] := by
  unfold merge
  simp only [List.flatten_cons, List.flatten_nil, List.append_nil]
  unfold dedupeEvents
  congr 1
  symm
  apply dict_ext
  · rw [keysOf_dictFold (P ++ P) [], keysOf_dictFold P []]
    simp only [keysOf, List.map_nil, List.nil_append, List.map_append]
    rw [firstSeen_append]
    simp only [List.append_nil]
    rw [firstSeen_nil_of_subset _ _ (fun k hk => hk)]
    simp only [List.append_nil]
  · exact keysOf_dictFold_nodup (P ++ P)
  · intro k
    rw [lookupKey_dictFold k (P ++ P) [], lookupKey_dictFold k P [],
      lastWithKey_append]
    cases h : lastWithKey k P with
    | some w => rfl
    | none => rfl

/-- Counterexample to claim C2: two events that differ only in their time
field are collapsed to one by the merge, because the dict key of
runthis.py line 113 omits the time; the claim requires them to stay
distinct, since not all four fields are equal.  (The survivor is the
last-seen event for the key.) -/
theorem merge_key_counterexample :
    evShow7pm.time ≠ evShow8pm.time
    ∧ evShow7pm.date = evShow8pm.date
    ∧ evShow7pm.name = evShow8pm.name
    ∧ evShow7pm.location = evShow8pm.location
    ∧ merge [[evShow7pm, evShow8pm]] = [evShow8pm] := by
  decide

/-- Claim C2 (amended): merging the passes yields a sequence of events with
pairwise distinct keys, where the key is the concatenated string
name_date_location — the time field is NOT part of the key, so two events
collapse exactly when those key strings coincide; the key order of the
result is the first-seen order of the keys across the concatenated passes,
every input event's key is represented, and every merged event is one of
the input events. -/
theorem merge_unique_by_string_key (passes : List (List Event)) :
    ((merge passes).map eventKey).Nodup
    ∧ (merge passes).map eventKey
        = firstSeen [] (passes.flatten.map eventKey)
    ∧ (∀ e ∈ passes.flatten, eventKey e ∈ (merge passes).map eventKey)
    ∧ (∀ e ∈ merge passes, e ∈ passes.flatten) := by
  have hkeys : (merge passes).map eventKey = keysOf (dictFold [] passes.flatten) := by
    unfold merge dedupeEvents keysOf
    rw [List.map_map]
    apply List.map_congr_left
    intro p hp
    simp only [Function.comp]
    exact (dictFold_key_eq passes.flatten [] (fun q hq => absurd hq
      (List.not_mem_nil q)) p hp).symm
  refine ⟨?_, ?_, ?_, ?_⟩
  · rw [hkeys]
    exact keysOf_dictFold_nodup passes.flatten
  · rw [hkeys, keysOf_dictFold passes.flatten []]
    simp [keysOf]
  · intro e he
    rw [hkeys]
    by_contra hne
    have h0 : lookupKey (eventKey e) (dictFold [] passes.flatten) = none :=
      (lookupKey_eq_none _ _).mpr hne
    rw [lookupKey_dictFold (eventKey e) passes.flatten []] at h0
    obtain ⟨v, hv⟩ := lastWithKey_isSome_of_mem e passes.flatten he
    rw [hv] at h0
    cases h0
  · intro e he
    unfold merge dedupeEvents at he
    rw [List.mem_map] at he
    obtain ⟨p, hp, hpe⟩ := he
    have h1 := dictFold_snd_mem passes.flatten [] p hp
    simp only [List.map_nil, List.nil_append] at h1
    rw [← hpe]
    exact h1

/-- Witness for the amended claim C2 at a concrete pair of passes. -/
theorem merge_unique_by_string_key_witness :
    evShow8pm ∈ ([[evShow7pm, evShow8pm]] : List (List Event)).flatten :=
  (merge_unique_by_string_key [[evShow7pm, evShow8pm]]).2.2.2 evShow8pm (by decide)

end Scraper
